import Mathlib

/-
  Verification of the "Gents by Elegante" inventory / point-of-sale web
  application.  The pure decision logic of the TypeScript sources is
  shallowly embedded as executable Lean definitions; quantities and money
  amounts are modelled as integers (quantities are integers in the schema,
  and every aggregation claim is uniform in the numeric values), with
  rationals only where the code divides (profit margin); dates are
  (year, month, day) triples ordered lexicographically (the order of the
  app's `yyyy-MM-dd` strings), and remote queries are filters over
  explicit row lists.
-/

namespace Elegante

/-- User roles, from the `user_role` enum of the SQL migration and the
`User` interface in `AuthContext.tsx`. -/
inductive Role : Type where
  | super_admin : Role
  | admin : Role
  | sales_staff : Role
deriving DecidableEq, Repr

/-- Gated routes of `App.tsx` with the `requiredRoles` prop of their
`ProtectedRoute` wrapper; the `/` and `/sales` routes pass no
`requiredRoles`, embedded as the empty list.  `/login` is not gated. -/
def appRoutes : List (String × List Role) :=
  [("/", []),
   ("/products", [Role.super_admin, Role.admin]),
   ("/stock", [Role.super_admin, Role.admin]),
   ("/sales", []),
   ("/analytics", [Role.super_admin, Role.admin]),
   ("/users", [Role.super_admin])]

/-- Modelled from the spec: the `ProtectedRoute` guard component is imported
by `App.tsx` but its source file is missing from the repository.  Per §4.2
of the spec: an unauthenticated visitor accessing any gated route is
denied (redirected to login); an authenticated visitor is denied when the
route declares required roles and the session role is not among them; a
route declaring zero required roles requires only authentication. -/
def protectedRouteAllows (requiredRoles : List Role) (session : Option Role) : Bool :=
  match session with
  | none => false
  | some r => requiredRoles.isEmpty || requiredRoles.contains r

/-- Whether navigating to `path` renders the page, for the given session:
the guard of the matching gated route of `App.tsx` is consulted;
a path with no gated route (only `/login`) renders freely. -/
def routeAllows (path : String) (session : Option Role) : Bool :=
  match appRoutes.lookup path with
  | some req => protectedRouteAllows req session
  | none => true

/-- The `navigation` array of `Layout.tsx`: each menu entry's link target
and its `roles` list. -/
def navigation : List (String × List Role) :=
  [("/", [Role.super_admin, Role.admin, Role.sales_staff]),
   ("/products", [Role.super_admin, Role.admin]),
   ("/stock", [Role.super_admin, Role.admin]),
   ("/sales", [Role.super_admin, Role.admin, Role.sales_staff]),
   ("/analytics", [Role.super_admin, Role.admin]),
   ("/users", [Role.super_admin])]

/-- The `filteredNavigation` computation of `Layout.tsx`:
`navigation.filter(item => item.roles.includes(user?.role || ''))`;
with no user the empty-string role matches no entry. -/
def filteredNavigation (session : Option Role) : List (String × List Role) :=
  navigation.filter (fun item =>
    match session with
    | some r => item.2.contains r
    | none => false)

/-- Claim C1: the route guards realize the role-to-page permission matrix
exactly: a sales_staff session is permitted on `/` and `/sales` and denied
on `/products`, `/stock`, `/analytics` and `/users`; an admin session is
permitted everywhere except `/users`; a super_admin session is permitted
everywhere; an unauthenticated visitor is denied on every gated route. -/
theorem C1_role_matrix :
    (routeAllows "/" (some Role.sales_staff) = true
      ∧ routeAllows "/sales" (some Role.sales_staff) = true
      ∧ routeAllows "/products" (some Role.sales_staff) = false
      ∧ routeAllows "/stock" (some Role.sales_staff) = false
      ∧ routeAllows "/analytics" (some Role.sales_staff) = false
      ∧ routeAllows "/users" (some Role.sales_staff) = false)
    ∧ (routeAllows "/" (some Role.admin) = true
      ∧ routeAllows "/products" (some Role.admin) = true
      ∧ routeAllows "/stock" (some Role.admin) = true
      ∧ routeAllows "/sales" (some Role.admin) = true
      ∧ routeAllows "/analytics" (some Role.admin) = true
      ∧ routeAllows "/users" (some Role.admin) = false)
    ∧ (∀ pr ∈ appRoutes, routeAllows pr.1 (some Role.super_admin) = true)
    ∧ (∀ pr ∈ appRoutes, routeAllows pr.1 none = false) := by
  decide

/-- Claim C4: for every role (and for the unauthenticated case), the set of
pages whose links the `Layout.tsx` menu displays equals the set of gated
routes of `App.tsx` whose guard permits that role: the two tables denote
the same page-to-allowed-roles mapping. -/
theorem C4_nav_matches_guards :
    navigation.map Prod.fst = appRoutes.map Prod.fst
    ∧ (filteredNavigation (some Role.super_admin)).map Prod.fst
        = ((appRoutes.filter
              (fun pr => protectedRouteAllows pr.2 (some Role.super_admin))).map Prod.fst)
    ∧ (filteredNavigation (some Role.admin)).map Prod.fst
        = ((appRoutes.filter
              (fun pr => protectedRouteAllows pr.2 (some Role.admin))).map Prod.fst)
    ∧ (filteredNavigation (some Role.sales_staff)).map Prod.fst
        = ((appRoutes.filter
              (fun pr => protectedRouteAllows pr.2 (some Role.sales_staff))).map Prod.fst)
    ∧ (filteredNavigation none).map Prod.fst
        = ((appRoutes.filter (fun pr => protectedRouteAllows pr.2 none)).map Prod.fst) := by
  decide

/-- The current-user record kept by `AuthContext.tsx` (interface `User`):
id, username and role, as stored in memory and in the
`elegante_user` local-storage key. -/
structure AuthUser : Type where
  id : String
  username : String
  role : Role
deriving DecidableEq, Repr

/-- The client-observable session state of `AuthContext.tsx`: the in-memory
`user` React state and the durable `elegante_user` local-storage record. -/
structure SessionState : Type where
  current : Option AuthUser
  storage : Option AuthUser
deriving DecidableEq, Repr

/-- The JSON body returned by the `auth-helpers` function for a `login`
request, as consumed by the client: an optional `success` flag (absent
encoded as `false`), an optional `user` record and an optional `error`
message. -/
structure LoginResult : Type where
  success : Bool
  user : Option AuthUser
  error : Option String
deriving Repr

/-- The `login` function of `AuthContext.tsx`, as a function of the parsed
response: `none` is the catch branch (network or parse failure).  When
`result.success && result.user`, the user data (id, username, role) is
stored in memory and in local storage and `true` is returned; otherwise
`false` is returned and the state is left as it was. -/
def login (resp : Option LoginResult) (s : SessionState) : Bool × SessionState :=
  match resp with
  | none => (false, s)
  | some r =>
    match r.success, r.user with
    | true, some u => (true, ⟨some u, some u⟩)
    | true, none => (false, s)
    | false, _ => (false, s)

/-- A row of the `users` table, as read by the `auth-helpers` function. -/
structure DbUser : Type where
  id : String
  username : String
  password : String
  role : Role
deriving DecidableEq, Repr

/-- The `action === 'login'` branch of `supabase/functions/auth-helpers/index.ts`:
look the username up (`maybeSingle`), answer `User not found` when absent,
compare the password against the stored bcrypt hash (the comparison
function is a parameter, bcrypt being external), answer `Invalid password`
on mismatch, and otherwise answer success with the user's id, username and
role. -/
def serverLogin (compare : String → String → Bool) (users : List DbUser)
    (username password : String) : LoginResult :=
  match users.find? (fun u => u.username == username) with
  | none => ⟨false, none, some "User not found"⟩
  | some u =>
    if compare password u.password then
      ⟨true, some ⟨u.id, u.username, u.role⟩, none⟩
    else
      ⟨false, none, some "Invalid password"⟩

/-- Claim C2: `login` returns `true` exactly when the authentication
service reports success with a user record, i.e. exactly when the username
lookup succeeds and the password comparison passes; in that case the
in-memory session and the local-storage record both hold that user's id,
username and role; on any failure — unknown username, wrong password, or
request error (`none` response) — it returns `false` and leaves the
session state unchanged. -/
theorem C2_login_contract (compare : String → String → Bool) (users : List DbUser)
    (username password : String) (s : SessionState) :
    ((login (some (serverLogin compare users username password)) s).1 = true
      ↔ ∃ u, users.find? (fun x => x.username == username) = some u
          ∧ compare password u.password = true)
    ∧ (∀ u, users.find? (fun x => x.username == username) = some u
        → compare password u.password = true
        → login (some (serverLogin compare users username password)) s
            = (true, ⟨some ⟨u.id, u.username, u.role⟩, some ⟨u.id, u.username, u.role⟩⟩))
    ∧ ((login (some (serverLogin compare users username password)) s).1 = false
        → login (some (serverLogin compare users username password)) s = (false, s))
    ∧ login none s = (false, s) := by
  unfold serverLogin
  cases hfind : users.find? (fun x => x.username == username) with
  | none =>
    refine ⟨?_, ?_, ?_, rfl⟩
    · simp [login]
    · intro u hu
      exact Option.noConfusion hu
    · intro _; simp [login]
  | some u =>
    by_cases hcmp : compare password u.password = true
    · refine ⟨?_, ?_, ?_, rfl⟩
      · simp [hcmp, login]
      · intro v hv hc
        cases hv
        simp [hcmp, login]
      · intro hfalse
        simp [hcmp, login] at hfalse
    · refine ⟨?_, ?_, ?_, rfl⟩
      · simp [hcmp, login]
      · intro v hv hc
        cases hv
        exact absurd hc hcmp
      · intro _; simp [hcmp, login]

/-- Witness for C2 at a concrete store with one user `jane`, using string
equality as the concrete password comparison: a correct login succeeds and
populates both stores. -/
theorem C2_login_contract_witness :
    ([(⟨"u1", "jane", "pw", Role.admin⟩ : DbUser)].find?
        (fun x => x.username == "jane") = some ⟨"u1", "jane", "pw", Role.admin⟩)
    ∧ (fun (p : String) (h : String) => p == h) "pw" "pw" = true
    ∧ login (some (serverLogin (fun p h => p == h)
          [⟨"u1", "jane", "pw", Role.admin⟩] "jane" "pw")) ⟨none, none⟩
        = (true, ⟨some ⟨"u1", "jane", Role.admin⟩, some ⟨"u1", "jane", Role.admin⟩⟩) :=
  ⟨by decide, by decide,
    (C2_login_contract (fun p h => p == h) [⟨"u1", "jane", "pw", Role.admin⟩]
        "jane" "pw" ⟨none, none⟩).2.1
      ⟨"u1", "jane", "pw", Role.admin⟩ (by decide) (by decide)⟩

/-- A calendar date, embedding the `yyyy-MM-dd` date strings the pages
format with date-fns and compare through the gateway's `gte`/`lte`/`eq`
filters (lexicographic string order on that format is date order). -/
structure Date : Type where
  year : Int
  month : Int
  day : Int
deriving DecidableEq, Repr

/-- Gregorian leap-year rule, as used by date-fns month arithmetic. -/
def isLeapYear (y : Int) : Bool :=
  (y % 4 == 0 && y % 100 != 0) || y % 400 == 0

/-- Number of days of month `m` of year `y` (date-fns `endOfMonth`). -/
def daysInMonth (y m : Int) : Int :=
  if m = 2 then (if isLeapYear y then 29 else 28)
  else if m = 4 ∨ m = 6 ∨ m = 9 ∨ m = 11 then 30
  else 31

/-- A date is valid when its month and day lie within calendar bounds. -/
def Date.valid (d : Date) : Prop :=
  1 ≤ d.month ∧ d.month ≤ 12 ∧ 1 ≤ d.day ∧ d.day ≤ daysInMonth d.year d.month

instance (d : Date) : Decidable d.valid := by
  unfold Date.valid; infer_instance

/-- Date order: the order of `yyyy-MM-dd` strings, i.e. lexicographic on
(year, month, day). -/
def Date.le (a b : Date) : Prop :=
  a.year < b.year
    ∨ (a.year = b.year
        ∧ (a.month < b.month ∨ (a.month = b.month ∧ a.day ≤ b.day)))

instance (a b : Date) : Decidable (Date.le a b) := by
  unfold Date.le; infer_instance

/-- date-fns `startOfMonth`, rendered as `yyyy-MM-dd`. -/
def startOfMonth (d : Date) : Date := ⟨d.year, d.month, 1⟩

/-- date-fns `endOfMonth`, rendered as `yyyy-MM-dd`. -/
def endOfMonth (d : Date) : Date := ⟨d.year, d.month, daysInMonth d.year d.month⟩

/-- The calendar day before `d`. -/
def prevDay (d : Date) : Date :=
  if 1 < d.day then ⟨d.year, d.month, d.day - 1⟩
  else if 1 < d.month then ⟨d.year, d.month - 1, daysInMonth d.year (d.month - 1)⟩
  else ⟨d.year - 1, 12, 31⟩

/-- date-fns `subDays(d, n)` (for the non-negative amounts the pages use):
step back one calendar day `n` times. -/
def subDays (d : Date) : Nat → Date
  | 0 => d
  | n + 1 => prevDay (subDays d n)

/-- Stable insertion placing `x` before the first element it strictly
precedes, embedding JS `Array.prototype.sort` (stable) under a strict
comparator. -/
def insertSorted {α : Type} (before : α → α → Bool) (x : α) : List α → List α
  | [] => [x]
  | y :: ys => if before x y then x :: y :: ys else y :: insertSorted before x ys

/-- Stable insertion sort under a strict precedence test. -/
def sortWith {α : Type} (before : α → α → Bool) (l : List α) : List α :=
  l.foldr (insertSorted before) []

lemma insertSorted_perm {α : Type} (before : α → α → Bool) (x : α) (l : List α) :
    (insertSorted before x l).Perm (x :: l) := by
  induction l with
  | nil => simp [insertSorted]
  | cons y ys ih =>
    unfold insertSorted
    split
    · exact List.Perm.refl _
    · exact (ih.cons y).trans (List.Perm.swap x y ys)

lemma sortWith_perm {α : Type} (before : α → α → Bool) (l : List α) :
    (sortWith before l).Perm l := by
  induction l with
  | nil => simp [sortWith]
  | cons x xs ih =>
    exact (insertSorted_perm before x (sortWith before xs)).trans (ih.cons x)

lemma mem_sortWith {α : Type} (before : α → α → Bool) (l : List α) (x : α) :
    x ∈ sortWith before l ↔ x ∈ l :=
  (sortWith_perm before l).mem_iff

/-- A product row as the Sales page fetches it
(`select('id, name, sku, sell_price, quantity')`). -/
structure SaleProduct : Type where
  id : String
  name : String
  sku : String
  sell_price : Int
  quantity : Int
deriving DecidableEq, Repr

/-- The sale form data of `Sales.tsx` (`SaleForm`). -/
structure SaleForm : Type where
  product_id : String
  quantity : Int
  price : Int
  date : Date
deriving DecidableEq, Repr

/-- The observable outcome of the Sales page submit handler: one of the two
early-return alerts, or an insert into the `sales` collection with the
row's fields. -/
inductive SubmitAction : Type where
  | alertSelectProduct : SubmitAction
  | alertInsufficientStock : SubmitAction
  | insertSale (product_id : String) (quantity price : Int) (date : Date)
      (recorded_by : Option String) : SubmitAction
deriving DecidableEq, Repr

/-- The `onSubmit` handler of `Sales.tsx`: look the selected product up in
the fetched `products` state; alert and return when absent; alert and
return when the requested quantity exceeds the product's fetched quantity;
otherwise insert the sale row (recorded by the session user's id). -/
def onSubmit (user : Option AuthUser) (products : List SaleProduct)
    (data : SaleForm) : SubmitAction :=
  match products.find? (fun p => p.id == data.product_id) with
  | none => SubmitAction.alertSelectProduct
  | some p =>
    if data.quantity > p.quantity then SubmitAction.alertInsufficientStock
    else SubmitAction.insertSale data.product_id data.quantity data.price data.date
        (user.map (fun u => u.id))

/-- The products query of the Sales page's `fetchData`
(`.gt('quantity', 0).order('name')`): keep rows with positive quantity,
ordered by name. -/
def fetchSaleableProducts (table : List SaleProduct) : List SaleProduct :=
  sortWith (fun a b => decide (a.name < b.name))
    (table.filter (fun p => decide (0 < p.quantity)))

/-- Claim C3: whenever the requested quantity exceeds the selected
product's last-fetched quantity the submit handler terminates with the
insufficient-stock alert, before issuing any insert; an insert is issued
only when a product is selected and the requested quantity is at most that
product's fetched quantity. -/
theorem C3_stock_precheck (user : Option AuthUser) (products : List SaleProduct)
    (data : SaleForm) :
    (∀ p, products.find? (fun x => x.id == data.product_id) = some p
      → p.quantity < data.quantity
      → onSubmit user products data = SubmitAction.alertInsufficientStock)
    ∧ (∀ pid q pr d rb,
        onSubmit user products data = SubmitAction.insertSale pid q pr d rb
        → ∃ p, products.find? (fun x => x.id == data.product_id) = some p
            ∧ data.quantity ≤ p.quantity) := by
  constructor
  · intro p hp hlt
    simp [onSubmit, hp, hlt]
  · intro pid q pr d rb hins
    unfold onSubmit at hins
    cases hfind : products.find? (fun x => x.id == data.product_id) with
    | none => rw [hfind] at hins; exact SubmitAction.noConfusion hins
    | some p =>
      rw [hfind] at hins
      by_cases hgt : data.quantity > p.quantity
      · simp [hgt] at hins
      · exact ⟨p, rfl, le_of_not_lt hgt⟩

/-- Witness for C3 at a concrete product list: requesting 5 of a product
with 3 in stock triggers the insufficient-stock alert. -/
theorem C3_stock_precheck_witness :
    ([(⟨"p1", "Shirt", "SKU1", 5, 3⟩ : SaleProduct)].find?
        (fun x => x.id == "p1") = some ⟨"p1", "Shirt", "SKU1", 5, 3⟩)
    ∧ ((3 : Int) < 5)
    ∧ onSubmit none [⟨"p1", "Shirt", "SKU1", 5, 3⟩]
        ⟨"p1", 5, 5, ⟨2026, 10, 11⟩⟩ = SubmitAction.alertInsufficientStock :=
  ⟨by decide, by decide,
    (C3_stock_precheck none [⟨"p1", "Shirt", "SKU1", 5, 3⟩]
        ⟨"p1", 5, 5, ⟨2026, 10, 11⟩⟩).1
      ⟨"p1", "Shirt", "SKU1", 5, 3⟩ (by decide) (by decide)⟩

/-- Claim C10: the Sales page's product selector offers only products whose
fetched quantity is strictly positive (the query filters `quantity > 0`),
so a sale can be inserted only against an offered, positive-quantity
product: no sale can be initiated against a product with zero or negative
on-hand quantity. -/
theorem C10_saleable_products (table : List SaleProduct) :
    (∀ p ∈ fetchSaleableProducts table, 0 < p.quantity)
    ∧ (∀ p ∈ table, ¬ 0 < p.quantity → p ∉ fetchSaleableProducts table)
    ∧ (∀ user data pid q pr d rb,
        onSubmit user (fetchSaleableProducts table) data
            = SubmitAction.insertSale pid q pr d rb
        → ∃ p ∈ fetchSaleableProducts table,
            p.id = data.product_id ∧ 0 < p.quantity) := by
  have hmem : ∀ p, p ∈ fetchSaleableProducts table ↔
      p ∈ table.filter (fun x => decide (0 < x.quantity)) := by
    intro p
    exact mem_sortWith _ _ p
  have hpos : ∀ p ∈ fetchSaleableProducts table, 0 < p.quantity := by
    intro p hp
    have := (hmem p).1 hp
    have := List.of_mem_filter this
    simpa using this
  refine ⟨hpos, ?_, ?_⟩
  · intro p _ hnp hp
    exact hnp (hpos p hp)
  · intro user data pid q pr d rb hins
    unfold onSubmit at hins
    cases hfind : (fetchSaleableProducts table).find?
        (fun x => x.id == data.product_id) with
    | none => rw [hfind] at hins; exact SubmitAction.noConfusion hins
    | some p =>
      have hp : p ∈ fetchSaleableProducts table := List.mem_of_find?_eq_some hfind
      have hid := List.find?_some hfind
      exact ⟨p, hp, by simpa using hid, hpos p hp⟩

/-- Witness for C10: a table holding a sold-out product and an in-stock one
offers only the latter, and inserting against it succeeds through the
submit handler. -/
theorem C10_saleable_products_witness :
    (∀ p ∈ fetchSaleableProducts
        [⟨"p0", "Gone", "SKU0", 4, 0⟩, ⟨"p1", "Shirt", "SKU1", 5, 3⟩], 0 < p.quantity)
    ∧ (onSubmit (some ⟨"u1", "jane", Role.admin⟩)
        (fetchSaleableProducts
          [⟨"p0", "Gone", "SKU0", 4, 0⟩, ⟨"p1", "Shirt", "SKU1", 5, 3⟩])
        ⟨"p1", 2, 5, ⟨2026, 10, 11⟩⟩
          = SubmitAction.insertSale "p1" 2 5 ⟨2026, 10, 11⟩ (some "u1"))
    ∧ ∃ p ∈ fetchSaleableProducts
        [⟨"p0", "Gone", "SKU0", 4, 0⟩, ⟨"p1", "Shirt", "SKU1", 5, 3⟩],
        p.id = "p1" ∧ 0 < p.quantity :=
  ⟨(C10_saleable_products
      [⟨"p0", "Gone", "SKU0", 4, 0⟩, ⟨"p1", "Shirt", "SKU1", 5, 3⟩]).1,
   by decide,
   (C10_saleable_products
      [⟨"p0", "Gone", "SKU0", 4, 0⟩, ⟨"p1", "Shirt", "SKU1", 5, 3⟩]).2.2
     (some ⟨"u1", "jane", Role.admin⟩) ⟨"p1", 2, 5, ⟨2026, 10, 11⟩⟩
     "p1" 2 5 ⟨2026, 10, 11⟩ (some "u1") (by decide)⟩

/-- A sales row joined with its product's current `buy_price`, as the
Dashboard and Analytics queries fetch it
(`select('quantity, price, ..., products!inner(buy_price)')`). -/
structure SaleRow : Type where
  quantity : Int
  price : Int
  buy_price : Int
  date : Date
deriving DecidableEq, Repr

/-- A gateway query with `.gte('date', lo).lte('date', hi)`. -/
def fetchRange (sales : List SaleRow) (lo hi : Date) : List SaleRow :=
  sales.filter (fun s => decide (Date.le lo s.date) && decide (Date.le s.date hi))

/-- A gateway query with `.eq('date', d)`. -/
def fetchOnDate (sales : List SaleRow) (d : Date) : List SaleRow :=
  sales.filter (fun s => decide (s.date = d))

/-- A gateway query with `.gte('date', lo)` and no upper bound. -/
def fetchSince (sales : List SaleRow) (lo : Date) : List SaleRow :=
  sales.filter (fun s => decide (Date.le lo s.date))

/-- `reduce((sum, sale) => sum + sale.price * sale.quantity, 0)`. -/
def sumRevenue (rows : List SaleRow) : Int :=
  rows.foldl (fun sum s => sum + s.price * s.quantity) 0

/-- `reduce((sum, sale) => sum + sale.products.buy_price * sale.quantity, 0)`. -/
def sumCost (rows : List SaleRow) : Int :=
  rows.foldl (fun sum s => sum + s.buy_price * s.quantity) 0

/-- `reduce((sum, sale) => sum + sale.quantity, 0)`. -/
def sumQuantity (rows : List SaleRow) : Int :=
  rows.foldl (fun sum s => sum + s.quantity) 0

/-- The current-month sales query of `fetchDashboardStats`
(`.gte('date', monthStart).lte('date', monthEnd)`). -/
def dashboardMonthlySales (sales : List SaleRow) (today : Date) : List SaleRow :=
  fetchRange sales (startOfMonth today) (endOfMonth today)

/-- `monthlyRevenue` of `Dashboard.tsx`. -/
def monthlyRevenue (sales : List SaleRow) (today : Date) : Int :=
  sumRevenue (dashboardMonthlySales sales today)

/-- `monthlyCost` of `Dashboard.tsx`. -/
def monthlyCost (sales : List SaleRow) (today : Date) : Int :=
  sumCost (dashboardMonthlySales sales today)

/-- `monthlyProfit` of `Dashboard.tsx`: revenue minus cost. -/
def monthlyProfit (sales : List SaleRow) (today : Date) : Int :=
  monthlyRevenue sales today - monthlyCost sales today

/-- `todaysSales` of `Dashboard.tsx`: quantity sum of the `.eq('date', today)`
query. -/
def todaysSales (sales : List SaleRow) (today : Date) : Int :=
  sumQuantity (fetchOnDate sales today)

/-- `weekSales` of `Dashboard.tsx`: quantity sum of the
`.gte('date', weekAgo)` query, where `weekAgo` is seven days before now. -/
def weekSales (sales : List SaleRow) (today : Date) : Int :=
  sumQuantity (fetchSince sales (subDays today 7))

lemma foldl_add_sum {α M : Type} [AddCommMonoid M] (f : α → M) (l : List α) (a : M) :
    l.foldl (fun acc x => acc + f x) a = a + (l.map f).sum := by
  induction l generalizing a with
  | nil => simp
  | cons x xs ih => simp [ih, add_assoc]

lemma daysInMonth_bounds (y m : Int) : 1 ≤ daysInMonth y m ∧ daysInMonth y m ≤ 31 := by
  unfold daysInMonth
  split
  · split <;> omega
  · split <;> omega

/-- Lying between the first and the last day of `d`'s month is the same as
sharing `d`'s year and month, for valid dates. -/
lemma inMonth_iff (d s : Date) (hd : d.valid) (hs : s.valid) :
    (Date.le (startOfMonth d) s ∧ Date.le s (endOfMonth d))
      ↔ (s.year = d.year ∧ s.month = d.month) := by
  obtain ⟨hdm1, hdm2, hdd1, hdd2⟩ := hd
  obtain ⟨hsm1, hsm2, hsd1, hsd2⟩ := hs
  have h1 := daysInMonth_bounds d.year d.month
  have h2 := daysInMonth_bounds s.year s.month
  simp only [Date.le, startOfMonth, endOfMonth]
  constructor
  · intro h
    omega
  · rintro ⟨hy, hm⟩
    have hDD : daysInMonth s.year s.month = daysInMonth d.year d.month := by
      rw [hy, hm]
    omega

/-- The calendar-boundary range query selects exactly the rows of `d`'s
year and month. -/
lemma fetchRange_month (sales : List SaleRow) (d : Date) (hd : d.valid)
    (hs : ∀ s ∈ sales, s.date.valid) :
    fetchRange sales (startOfMonth d) (endOfMonth d)
      = sales.filter
          (fun s => decide (s.date.year = d.year ∧ s.date.month = d.month)) := by
  apply List.filter_congr
  intro s hsmem
  rw [← Bool.decide_and]
  exact decide_eq_decide.mpr (inMonth_iff d s.date hd (hs s hsmem))

/-- Claim C5: over the fetched current-month rows (exactly the sales whose
date lies in the current calendar month), the Dashboard computes monthly
revenue as Σ(price × quantity), monthly cost as Σ(product's current
buy_price × quantity), and monthly profit as revenue minus cost. -/
theorem C5_dashboard_month (sales : List SaleRow) (today : Date)
    (hd : today.valid) (hs : ∀ s ∈ sales, s.date.valid) :
    dashboardMonthlySales sales today
      = sales.filter
          (fun s => decide (s.date.year = today.year ∧ s.date.month = today.month))
    ∧ monthlyRevenue sales today
        = ((dashboardMonthlySales sales today).map (fun s => s.price * s.quantity)).sum
    ∧ monthlyCost sales today
        = ((dashboardMonthlySales sales today).map
            (fun s => s.buy_price * s.quantity)).sum
    ∧ monthlyProfit sales today = monthlyRevenue sales today - monthlyCost sales today := by
  refine ⟨fetchRange_month sales today hd hs, ?_, ?_, rfl⟩
  · simp [monthlyRevenue, sumRevenue, foldl_add_sum]
  · simp [monthlyCost, sumCost, foldl_add_sum]

/-- Witness for C5: the spec's own example — in-month sales of 3×100 and
2×50 (plus an out-of-month row) give revenue 400, cost 240, profit 160. -/
theorem C5_dashboard_month_witness :
    (Date.valid ⟨2026, 10, 11⟩)
    ∧ (∀ s ∈ [(⟨3, 100, 60, ⟨2026, 10, 5⟩⟩ : SaleRow),
        ⟨2, 50, 30, ⟨2026, 10, 7⟩⟩, ⟨1, 999, 1, ⟨2026, 9, 30⟩⟩], s.date.valid)
    ∧ (dashboardMonthlySales
          [⟨3, 100, 60, ⟨2026, 10, 5⟩⟩, ⟨2, 50, 30, ⟨2026, 10, 7⟩⟩,
           ⟨1, 999, 1, ⟨2026, 9, 30⟩⟩] ⟨2026, 10, 11⟩
        = List.filter
            (fun s => decide (s.date.year = (2026 : Int) ∧ s.date.month = (10 : Int)))
            [⟨3, 100, 60, ⟨2026, 10, 5⟩⟩, ⟨2, 50, 30, ⟨2026, 10, 7⟩⟩,
             ⟨1, 999, 1, ⟨2026, 9, 30⟩⟩]
      ∧ monthlyRevenue
            [⟨3, 100, 60, ⟨2026, 10, 5⟩⟩, ⟨2, 50, 30, ⟨2026, 10, 7⟩⟩,
             ⟨1, 999, 1, ⟨2026, 9, 30⟩⟩] ⟨2026, 10, 11⟩
          = ((dashboardMonthlySales
                [⟨3, 100, 60, ⟨2026, 10, 5⟩⟩, ⟨2, 50, 30, ⟨2026, 10, 7⟩⟩,
                 ⟨1, 999, 1, ⟨2026, 9, 30⟩⟩] ⟨2026, 10, 11⟩).map
              (fun s => s.price * s.quantity)).sum
      ∧ monthlyCost
            [⟨3, 100, 60, ⟨2026, 10, 5⟩⟩, ⟨2, 50, 30, ⟨2026, 10, 7⟩⟩,
             ⟨1, 999, 1, ⟨2026, 9, 30⟩⟩] ⟨2026, 10, 11⟩
          = ((dashboardMonthlySales
                [⟨3, 100, 60, ⟨2026, 10, 5⟩⟩, ⟨2, 50, 30, ⟨2026, 10, 7⟩⟩,
                 ⟨1, 999, 1, ⟨2026, 9, 30⟩⟩] ⟨2026, 10, 11⟩).map
              (fun s => s.buy_price * s.quantity)).sum
      ∧ monthlyProfit
            [⟨3, 100, 60, ⟨2026, 10, 5⟩⟩, ⟨2, 50, 30, ⟨2026, 10, 7⟩⟩,
             ⟨1, 999, 1, ⟨2026, 9, 30⟩⟩] ⟨2026, 10, 11⟩
          = monthlyRevenue
              [⟨3, 100, 60, ⟨2026, 10, 5⟩⟩, ⟨2, 50, 30, ⟨2026, 10, 7⟩⟩,
               ⟨1, 999, 1, ⟨2026, 9, 30⟩⟩] ⟨2026, 10, 11⟩
            - monthlyCost
                [⟨3, 100, 60, ⟨2026, 10, 5⟩⟩, ⟨2, 50, 30, ⟨2026, 10, 7⟩⟩,
                 ⟨1, 999, 1, ⟨2026, 9, 30⟩⟩] ⟨2026, 10, 11⟩)
    ∧ monthlyRevenue
        [⟨3, 100, 60, ⟨2026, 10, 5⟩⟩, ⟨2, 50, 30, ⟨2026, 10, 7⟩⟩,
         ⟨1, 999, 1, ⟨2026, 9, 30⟩⟩] ⟨2026, 10, 11⟩ = 400 :=
  ⟨by decide, by decide,
   C5_dashboard_month
     [⟨3, 100, 60, ⟨2026, 10, 5⟩⟩, ⟨2, 50, 30, ⟨2026, 10, 7⟩⟩,
      ⟨1, 999, 1, ⟨2026, 9, 30⟩⟩] ⟨2026, 10, 11⟩ (by decide) (by decide),
   by decide⟩

/-- Counterexample to C7: the week query has no upper date bound
(`.gte('date', weekAgo)` only), so a future-dated sale is counted.  With
today = 2026-01-10 and a single sale of quantity 5 dated 2026-02-01, the
code's week figure is 5, while the sum over the trailing-7-days window
[2026-01-03, 2026-01-10] is 0. -/
theorem C7_week_counterexample :
    weekSales [⟨5, 1, 1, ⟨2026, 2, 1⟩⟩] ⟨2026, 1, 10⟩ = 5
    ∧ sumQuantity (fetchRange [⟨5, 1, 1, ⟨2026, 2, 1⟩⟩]
        (subDays ⟨2026, 1, 10⟩ 7) ⟨2026, 1, 10⟩) = 0
    ∧ weekSales [⟨5, 1, 1, ⟨2026, 2, 1⟩⟩] ⟨2026, 1, 10⟩
        ≠ sumQuantity (fetchRange [⟨5, 1, 1, ⟨2026, 2, 1⟩⟩]
            (subDays ⟨2026, 1, 10⟩ 7) ⟨2026, 1, 10⟩) := by
  decide

/-- Claim C7 as amended: today's figure sums raw quantity over sales dated
exactly today; the week figure sums raw quantity over sales dated on or
after seven days ago, with no upper bound — it equals the trailing-7-days
window sum exactly when no fetched sale is dated after today. -/
theorem C7_amended_today_week (sales : List SaleRow) (today : Date) :
    todaysSales sales today
      = ((sales.filter (fun s => decide (s.date = today))).map
          (fun s => s.quantity)).sum
    ∧ weekSales sales today
      = ((sales.filter (fun s => decide (Date.le (subDays today 7) s.date))).map
          (fun s => s.quantity)).sum
    ∧ ((∀ s ∈ sales, Date.le s.date today) →
        weekSales sales today
          = sumQuantity (fetchRange sales (subDays today 7) today)) := by
  refine ⟨?_, ?_, ?_⟩
  · simp [todaysSales, sumQuantity, fetchOnDate, foldl_add_sum]
  · simp [weekSales, sumQuantity, fetchSince, foldl_add_sum]
  · intro hall
    unfold weekSales fetchSince fetchRange
    congr 1
    apply List.filter_congr
    intro s hsmem
    simp [hall s hsmem]

/-- Witness for C7's amended claim: with no future-dated sale, the week
figure equals the trailing-window sum. -/
theorem C7_amended_today_week_witness :
    (∀ s ∈ [(⟨2, 10, 5, ⟨2026, 10, 10⟩⟩ : SaleRow)], Date.le s.date ⟨2026, 10, 11⟩)
    ∧ weekSales [⟨2, 10, 5, ⟨2026, 10, 10⟩⟩] ⟨2026, 10, 11⟩
        = sumQuantity (fetchRange [⟨2, 10, 5, ⟨2026, 10, 10⟩⟩]
            (subDays ⟨2026, 10, 11⟩ 7) ⟨2026, 10, 11⟩) :=
  ⟨by decide,
   (C7_amended_today_week [⟨2, 10, 5, ⟨2026, 10, 10⟩⟩] ⟨2026, 10, 11⟩).2.2 (by decide)⟩

lemma prevDay_valid (d : Date) (h : d.valid) : (prevDay d).valid := by
  obtain ⟨h1, h2, h3, h4⟩ := h
  have hb := daysInMonth_bounds d.year (d.month - 1)
  unfold prevDay
  split
  next hday =>
    refine ⟨h1, h2, ?_, ?_⟩
    · show (1 : Int) ≤ d.day - 1
      omega
    · show d.day - 1 ≤ daysInMonth d.year d.month
      omega
  next hday =>
    split
    next hmon =>
      refine ⟨?_, ?_, ?_, ?_⟩
      · show (1 : Int) ≤ d.month - 1
        omega
      · show d.month - 1 ≤ 12
        omega
      · show (1 : Int) ≤ daysInMonth d.year (d.month - 1)
        exact hb.1
      · show daysInMonth d.year (d.month - 1) ≤ daysInMonth d.year (d.month - 1)
        exact le_refl _
    next hmon =>
      refine ⟨?_, ?_, ?_, ?_⟩
      · show (1 : Int) ≤ 12
        norm_num
      · show (12 : Int) ≤ 12
        norm_num
      · show (1 : Int) ≤ 31
        norm_num
      · show (31 : Int) ≤ daysInMonth (d.year - 1) 12
        norm_num [daysInMonth]

lemma subDays_valid (d : Date) (h : d.valid) (n : Nat) : (subDays d n).valid := by
  induction n with
  | zero => exact h
  | succ k ih => exact prevDay_valid _ ih

/-- One bucket of the Analytics monthly series (`MonthlyData` of
`Analytics.tsx`); the `'MMM yyyy'` label is embedded as the (year, month)
pair it renders. -/
structure MonthlyData : Type where
  month : Int × Int
  revenue : Int
  cost : Int
  profit : Int
  sales : Nat
deriving DecidableEq, Repr

/-- The (year, month) pair a date's `'MMM yyyy'` label renders. -/
def monthOf (d : Date) : Int × Int := (d.year, d.month)

/-- The six dates the Analytics loop visits:
`for (let i = 5; i >= 0; i--) { const date = subDays(new Date(), i * 30) }`. -/
def analyticsMonthDates (today : Date) : List Date :=
  [subDays today (5 * 30), subDays today (4 * 30), subDays today (3 * 30),
   subDays today (2 * 30), subDays today (1 * 30), subDays today (0 * 30)]

/-- One iteration of the Analytics loop: fetch the sales between the
calendar start and end of `d`'s month, then aggregate revenue, cost,
profit = revenue − cost, and the row count. -/
def monthBucket (sales : List SaleRow) (d : Date) : MonthlyData :=
  let rows := fetchRange sales (startOfMonth d) (endOfMonth d)
  ⟨monthOf d, sumRevenue rows, sumCost rows, sumRevenue rows - sumCost rows, rows.length⟩

/-- The `months` array `fetchAnalyticsData` pushes. -/
def analyticsMonthly (sales : List SaleRow) (today : Date) : List MonthlyData :=
  (analyticsMonthDates today).map (monthBucket sales)

set_option maxRecDepth 40000 in
/-- Counterexample to C6: the series steps back 30 days at a time, not one
calendar month, so the six buckets need not be six distinct consecutive
months.  From a current date of 2026-03-01 the visited months are
Oct 2025, Nov 2025, Dec 2025, Dec 2025, Jan 2026, Mar 2026: December is
duplicated and February is skipped. -/
theorem C6_months_counterexample :
    (analyticsMonthDates ⟨2026, 3, 1⟩).map monthOf
      = [(2025, 10), (2025, 11), (2025, 12), (2025, 12), (2026, 1), (2026, 3)]
    ∧ ¬ ((analyticsMonthDates ⟨2026, 3, 1⟩).map monthOf).Nodup
    ∧ ((2026 : Int), (2 : Int)) ∉ (analyticsMonthDates ⟨2026, 3, 1⟩).map monthOf := by
  decide

set_option maxRecDepth 40000 in
/-- Claim C6 as amended: the monthly series has six buckets, one for the
calendar month of each of the dates 150, 120, 90, 60, 30 and 0 days before
the current date (these months may repeat or skip calendar months; the
last bucket is the current month), and each bucket aggregates revenue,
cost, profit and sale-row count over exactly the sales whose date lies
within that month's calendar boundaries, cost using each sale's product's
current buy_price. -/
theorem C6_amended_series (sales : List SaleRow) (today : Date)
    (hd : today.valid) (hs : ∀ s ∈ sales, s.date.valid) :
    analyticsMonthDates today
      = [subDays today 150, subDays today 120, subDays today 90,
         subDays today 60, subDays today 30, today]
    ∧ (analyticsMonthly sales today).length = 6
    ∧ (∀ d ∈ analyticsMonthDates today,
        monthBucket sales d =
          { month := monthOf d
            revenue := ((sales.filter (fun s =>
                decide (s.date.year = d.year ∧ s.date.month = d.month))).map
                  (fun s => s.price * s.quantity)).sum
            cost := ((sales.filter (fun s =>
                decide (s.date.year = d.year ∧ s.date.month = d.month))).map
                  (fun s => s.buy_price * s.quantity)).sum
            profit := ((sales.filter (fun s =>
                decide (s.date.year = d.year ∧ s.date.month = d.month))).map
                  (fun s => s.price * s.quantity)).sum
              - ((sales.filter (fun s =>
                  decide (s.date.year = d.year ∧ s.date.month = d.month))).map
                    (fun s => s.buy_price * s.quantity)).sum
            sales := (sales.filter (fun s =>
                decide (s.date.year = d.year ∧ s.date.month = d.month))).length }) := by
  refine ⟨rfl, rfl, ?_⟩
  have hbucket : ∀ n : Nat, monthBucket sales (subDays today n) =
      { month := monthOf (subDays today n)
        revenue := ((sales.filter (fun s =>
            decide (s.date.year = (subDays today n).year
              ∧ s.date.month = (subDays today n).month))).map
              (fun s => s.price * s.quantity)).sum
        cost := ((sales.filter (fun s =>
            decide (s.date.year = (subDays today n).year
              ∧ s.date.month = (subDays today n).month))).map
              (fun s => s.buy_price * s.quantity)).sum
        profit := ((sales.filter (fun s =>
            decide (s.date.year = (subDays today n).year
              ∧ s.date.month = (subDays today n).month))).map
              (fun s => s.price * s.quantity)).sum
          - ((sales.filter (fun s =>
              decide (s.date.year = (subDays today n).year
                ∧ s.date.month = (subDays today n).month))).map
                (fun s => s.buy_price * s.quantity)).sum
        sales := (sales.filter (fun s =>
            decide (s.date.year = (subDays today n).year
              ∧ s.date.month = (subDays today n).month))).length } := by
    intro n
    have hv := subDays_valid today hd n
    unfold monthBucket
    rw [fetchRange_month sales _ hv hs]
    simp [sumRevenue, sumCost, foldl_add_sum]
  intro d hdmem
  simp only [analyticsMonthDates, List.mem_cons, List.not_mem_nil, or_false] at hdmem
  rcases hdmem with rfl | rfl | rfl | rfl | rfl | rfl
  · exact hbucket (5 * 30)
  · exact hbucket (4 * 30)
  · exact hbucket (3 * 30)
  · exact hbucket (2 * 30)
  · exact hbucket (1 * 30)
  · exact hbucket (0 * 30)

set_option maxRecDepth 40000 in
/-- Witness for C6's amended claim, at the 2026-03-01 date of the
counterexample with one February sale (which falls into no bucket) and one
March sale. -/
theorem C6_amended_series_witness :
    (Date.valid ⟨2026, 3, 1⟩)
    ∧ (∀ s ∈ [(⟨2, 100, 40, ⟨2026, 2, 15⟩⟩ : SaleRow), ⟨1, 50, 20, ⟨2026, 3, 1⟩⟩],
        s.date.valid)
    ∧ (analyticsMonthly
        [⟨2, 100, 40, ⟨2026, 2, 15⟩⟩, ⟨1, 50, 20, ⟨2026, 3, 1⟩⟩] ⟨2026, 3, 1⟩).length = 6 :=
  ⟨by decide, by decide,
   (C6_amended_series [⟨2, 100, 40, ⟨2026, 2, 15⟩⟩, ⟨1, 50, 20, ⟨2026, 3, 1⟩⟩]
      ⟨2026, 3, 1⟩ (by decide) (by decide)).2.1⟩

/-- The overall stats of `fetchAnalyticsData` (`totalRevenue`, `totalProfit`,
`totalSales`, `profitMargin`); the margin divides, so it is a rational. -/
structure AnalyticsStats : Type where
  totalRevenue : Int
  totalProfit : Int
  totalSales : Nat
  profitMargin : Rat
deriving DecidableEq, Repr

/-- The overall-stats computation at the end of `fetchAnalyticsData`:
totals are month-bucket sums, profit is revenue minus cost, and
`profitMargin = totalRevenue > 0 ? (totalProfit / totalRevenue) * 100 : 0`. -/
def computeOverallStats (months : List MonthlyData) : AnalyticsStats :=
  let totalRevenue : Int := months.foldl (fun sum m => sum + m.revenue) 0
  let totalCost : Int := months.foldl (fun sum m => sum + m.cost) 0
  let totalProfit : Int := totalRevenue - totalCost
  let totalSales : Nat := months.foldl (fun sum m => sum + m.sales) 0
  let profitMargin : Rat :=
    if totalRevenue > 0 then (totalProfit : Rat) / (totalRevenue : Rat) * 100 else 0
  ⟨totalRevenue, totalProfit, totalSales, profitMargin⟩

/-- Claim C9: the profit-margin figure equals total profit divided by total
revenue times 100 whenever total revenue is positive, and equals 0 when
total revenue is 0: the division is guarded by the positivity test. -/
theorem C9_profit_margin (months : List MonthlyData) :
    (0 < (computeOverallStats months).totalRevenue →
      (computeOverallStats months).profitMargin
        = ((computeOverallStats months).totalProfit : Rat)
            / ((computeOverallStats months).totalRevenue : Rat) * 100)
    ∧ ((computeOverallStats months).totalRevenue = 0 →
      (computeOverallStats months).profitMargin = 0) := by
  constructor
  · intro h
    simp only [computeOverallStats] at h ⊢
    rw [if_pos h]
  · intro h
    simp only [computeOverallStats] at h ⊢
    rw [if_neg (by omega)]

/-- Witness for C9 at a single month of revenue 200 and cost 50: total
revenue is positive, so the margin is the guarded quotient. -/
theorem C9_profit_margin_witness :
    0 < (computeOverallStats [⟨(2026, 10), 200, 50, 150, 2⟩]).totalRevenue
    ∧ (computeOverallStats [⟨(2026, 10), 200, 50, 150, 2⟩]).profitMargin
        = ((computeOverallStats [⟨(2026, 10), 200, 50, 150, 2⟩]).totalProfit : Rat)
            / ((computeOverallStats [⟨(2026, 10), 200, 50, 150, 2⟩]).totalRevenue : Rat)
            * 100 :=
  ⟨by decide,
   (C9_profit_margin [⟨(2026, 10), 200, 50, 150, 2⟩]).1 (by decide)⟩

/-- A sales row joined with its product's name and sku, as the Analytics
top-products query fetches it
(`select('quantity, price, products!inner(name, sku)')`). -/
structure TopSaleRow : Type where
  quantity : Int
  price : Int
  name : String
  sku : String
deriving DecidableEq, Repr

/-- An aggregated entry of the Analytics top-products table
(`TopProduct` of `Analytics.tsx`). -/
structure TopProduct : Type where
  name : String
  sku : String
  totalSold : Int
  revenue : Int
deriving DecidableEq, Repr

/-- The grouping key of the top-products loop:
`` `${sale.products.name}-${sale.products.sku}` ``. -/
def topKey (s : TopSaleRow) : String := s.name ++ "-" ++ s.sku

/-- The update applied to an existing map entry:
`existing.totalSold += sale.quantity; existing.revenue += sale.price * sale.quantity`. -/
def addRow (t : TopProduct) (s : TopSaleRow) : TopProduct :=
  { t with totalSold := t.totalSold + s.quantity,
           revenue := t.revenue + s.price * s.quantity }

/-- One iteration of the `topProductsData.forEach` loop over the insertion
-ordered `productMap` (a JS `Map`, embedded as an association list): when
the key is present the matching entry is updated in place, otherwise a
fresh entry is appended. -/
def insertTop (m : List (String × TopProduct)) (s : TopSaleRow) :
    List (String × TopProduct) :=
  if m.any (fun kv => kv.1 == topKey s) then
    m.map (fun kv => if kv.1 == topKey s then (kv.1, addRow kv.2 s) else kv)
  else
    m ++ [(topKey s, ⟨s.name, s.sku, s.quantity, s.price * s.quantity⟩)]

/-- The `productMap` built by `fetchAnalyticsData`. -/
def productMap (sales : List TopSaleRow) : List (String × TopProduct) :=
  sales.foldl insertTop []

/-- `topProductsArray`: the map's values sorted by revenue descending
(`.sort((a, b) => b.revenue - a.revenue)`, stable) and truncated to five
(`.slice(0, 5)`). -/
def topProductsArray (sales : List TopSaleRow) : List TopProduct :=
  (sortWith (fun a b => decide (b.revenue < a.revenue))
    ((productMap sales).map Prod.snd)).take 5

/-- The grouping the spec describes, for comparison: identical to
`insertTop` but keyed by the (name, sku) pair itself rather than by the
hyphen-joined string. -/
def insertTopByPair (m : List ((String × String) × TopProduct)) (s : TopSaleRow) :
    List ((String × String) × TopProduct) :=
  if m.any (fun kv => kv.1 == (s.name, s.sku)) then
    m.map (fun kv => if kv.1 == (s.name, s.sku) then (kv.1, addRow kv.2 s) else kv)
  else
    m ++ [((s.name, s.sku), ⟨s.name, s.sku, s.quantity, s.price * s.quantity⟩)]

/-- The (name, sku)-pair grouping the spec describes. -/
def productMapByPair (sales : List TopSaleRow) : List ((String × String) × TopProduct) :=
  sales.foldl insertTopByPair []

/-- The fetched rows whose code grouping key equals `k`. -/
def keyRows (sales : List TopSaleRow) (k : String) : List TopSaleRow :=
  sales.filter (fun s => topKey s == k)

/-- The aggregate the code's map is expected to hold at key `k`: starting
from the first matching row's name and sku with zero totals, fold all
matching rows in. -/
def groupOf (sales : List TopSaleRow) (k : String) : Option TopProduct :=
  match keyRows sales k with
  | [] => none
  | s :: _ => some ((keyRows sales k).foldl addRow ⟨s.name, s.sku, 0, 0⟩)

lemma lookup_eq_none_of_any_false {β : Type} (m : List (String × β)) (k : String)
    (h : m.any (fun kv => kv.1 == k) = false) : m.lookup k = none := by
  induction m with
  | nil => rfl
  | cons kv rest ih =>
    obtain ⟨k1, v1⟩ := kv
    simp only [List.any_cons, Bool.or_eq_false_iff] at h
    obtain ⟨h1, h2⟩ := h
    have hk1 : ¬ k1 = k := by simpa using h1
    have hk : (k == k1) = false := by
      simp only [beq_eq_false_iff_ne, ne_eq]
      exact fun he => hk1 he.symm
    simp [List.lookup, hk, ih h2]

lemma lookup_isSome_of_any {β : Type} (m : List (String × β)) (k : String)
    (h : m.any (fun kv => kv.1 == k) = true) : (m.lookup k).isSome = true := by
  induction m with
  | nil => simp at h
  | cons kv rest ih =>
    obtain ⟨k1, v1⟩ := kv
    by_cases hk : (k == k1) = true
    · simp [List.lookup, hk]
    · have hkf : (k == k1) = false := by simpa using hk
      have hk1 : (k1 == k) = false := by
        simp only [beq_eq_false_iff_ne, ne_eq]
        intro he
        rw [he] at hkf
        simp at hkf
      simp only [List.any_cons, hk1, Bool.false_or] at h
      simp [List.lookup, hkf, ih h]

lemma lookup_append_of_none {β : Type} (m l : List (String × β)) (k : String)
    (h : m.lookup k = none) : (m ++ l).lookup k = l.lookup k := by
  induction m with
  | nil => simp
  | cons kv rest ih =>
    obtain ⟨k1, v1⟩ := kv
    by_cases hk : (k == k1) = true
    · simp only [List.lookup, hk] at h
      exact Option.noConfusion h
    · have hkf : (k == k1) = false := by simpa using hk
      simp only [List.cons_append, List.lookup, hkf] at h ⊢
      exact ih h

lemma lookup_append_of_some {β : Type} (m l : List (String × β)) (k : String)
    (t : β) (h : m.lookup k = some t) : (m ++ l).lookup k = some t := by
  induction m with
  | nil => simp at h
  | cons kv rest ih =>
    obtain ⟨k1, v1⟩ := kv
    by_cases hk : (k == k1) = true
    · simp only [List.cons_append, List.lookup, hk] at h ⊢
      exact h
    · have hkf : (k == k1) = false := by simpa using hk
      simp only [List.cons_append, List.lookup, hkf] at h ⊢
      exact ih h

lemma lookup_map_update (m : List (String × TopProduct)) (s : TopSaleRow) (k : String) :
    (m.map (fun kv => if kv.1 == topKey s then (kv.1, addRow kv.2 s) else kv)).lookup k
      = if topKey s = k then (m.lookup k).map (fun t => addRow t s)
        else m.lookup k := by
  induction m with
  | nil =>
    by_cases h : topKey s = k
    · rw [if_pos h]
      rfl
    · rw [if_neg h]
      rfl
  | cons kv rest ih =>
    obtain ⟨k1, v1⟩ := kv
    simp only [List.map_cons]
    by_cases hb1 : (k1 == topKey s) = true
    · rw [if_pos hb1]
      have he1 : k1 = topKey s := by simpa using hb1
      by_cases hb2 : (k == k1) = true
      · have he2 : k = k1 := by simpa using hb2
        have hks : topKey s = k := (he2.trans he1).symm
        rw [if_pos hks]
        simp only [List.lookup, hb2, Option.map_some']
      · have hbf2 : (k == k1) = false := by simpa using hb2
        have hks : ¬ topKey s = k := by
          intro he
          rw [← he1] at he
          rw [he] at hbf2
          simp at hbf2
        rw [if_neg hks]
        have hrec := ih
        rw [if_neg hks] at hrec
        simp only [List.lookup, hbf2]
        exact hrec
    · rw [if_neg hb1]
      have he1 : ¬ k1 = topKey s := by simpa using hb1
      by_cases hb2 : (k == k1) = true
      · have hks : ¬ topKey s = k := by
          intro he
          exact he1 ((by simpa using hb2 : k = k1) ▸ he.symm)
        rw [if_neg hks]
        simp only [List.lookup, hb2]
      · have hbf2 : (k == k1) = false := by simpa using hb2
        by_cases hks : topKey s = k
        · rw [if_pos hks]
          have hrec := ih
          rw [if_pos hks] at hrec
          simp only [List.lookup, hbf2]
          exact hrec
        · rw [if_neg hks]
          have hrec := ih
          rw [if_neg hks] at hrec
          simp only [List.lookup, hbf2]
          exact hrec

lemma lookup_insertTop (m : List (String × TopProduct)) (s : TopSaleRow) (k : String) :
    (insertTop m s).lookup k
      = if topKey s = k then
          (match m.lookup k with
           | some t => some (addRow t s)
           | none => some ⟨s.name, s.sku, s.quantity, s.price * s.quantity⟩)
        else m.lookup k := by
  unfold insertTop
  by_cases hany : (m.any (fun kv => kv.1 == topKey s)) = true
  · rw [if_pos hany, lookup_map_update]
    by_cases hk : topKey s = k
    · rw [if_pos hk, if_pos hk]
      cases hl : m.lookup k with
      | some t => simp
      | none =>
        rw [hk] at hany
        have := lookup_isSome_of_any m k hany
        rw [hl] at this
        simp at this
    · rw [if_neg hk, if_neg hk]
  · rw [if_neg hany]
    by_cases hk : topKey s = k
    · rw [if_pos hk]
      have hany' : m.any (fun kv => kv.1 == topKey s) = false :=
        Bool.eq_false_iff.mpr hany
      have hnone : m.lookup k = none := by
        apply lookup_eq_none_of_any_false
        rw [← hk]
        exact hany'
      rw [lookup_append_of_none m _ k hnone, hnone]
      simp [List.lookup, hk]
    · rw [if_neg hk]
      cases hl : m.lookup k with
      | some t => exact lookup_append_of_some m _ k t hl
      | none =>
        rw [lookup_append_of_none m _ k hl]
        have hkf : (k == topKey s) = false := by
          simp only [beq_eq_false_iff_ne, ne_eq]
          exact fun he => hk he.symm
        simp only [List.lookup, hkf]

lemma lookup_productMap_loop (sales : List TopSaleRow) :
    ∀ (m : List (String × TopProduct)) (k : String),
    (sales.foldl insertTop m).lookup k
      = match m.lookup k with
        | some t => some ((keyRows sales k).foldl addRow t)
        | none =>
          match keyRows sales k with
          | [] => none
          | s :: _ => some ((keyRows sales k).foldl addRow ⟨s.name, s.sku, 0, 0⟩) := by
  induction sales with
  | nil =>
    intro m k
    cases hm : m.lookup k with
    | some t => simp [keyRows, hm]
    | none => simp [keyRows, hm]
  | cons s rest ih =>
    intro m k
    have hfold : (s :: rest).foldl insertTop m = rest.foldl insertTop (insertTop m s) := rfl
    rw [hfold, ih (insertTop m s) k, lookup_insertTop]
    by_cases hk : topKey s = k
    · rw [if_pos hk]
      have hkeq : (topKey s == k) = true := by simpa using hk
      have hkc : keyRows (s :: rest) k = s :: keyRows rest k := by
        simp [keyRows, List.filter_cons, hkeq]
      have hbase : addRow ⟨s.name, s.sku, 0, 0⟩ s
          = (⟨s.name, s.sku, s.quantity, s.price * s.quantity⟩ : TopProduct) := by
        simp [addRow]
      cases hm : m.lookup k with
      | some t => simp [hkc]
      | none => simp [hkc, hbase]
    · rw [if_neg hk]
      have hkeq : (topKey s == k) = false := by
        simp only [beq_eq_false_iff_ne, ne_eq]
        exact hk
      have hkc : keyRows (s :: rest) k = keyRows rest k := by
        simp [keyRows, List.filter_cons, hkeq]
      rw [hkc]

/-- The code's map holds, at every key, exactly the fold of that key's rows
starting from the first matching row's name and sku. -/
lemma lookup_productMap (sales : List TopSaleRow) (k : String) :
    (productMap sales).lookup k = groupOf sales k := by
  rw [productMap, lookup_productMap_loop sales [] k]
  rfl

lemma foldl_addRow_fields (rows : List TopSaleRow) (t : TopProduct) :
    (rows.foldl addRow t).name = t.name
    ∧ (rows.foldl addRow t).sku = t.sku
    ∧ (rows.foldl addRow t).totalSold
        = t.totalSold + (rows.map (fun s => s.quantity)).sum
    ∧ (rows.foldl addRow t).revenue
        = t.revenue + (rows.map (fun s => s.price * s.quantity)).sum := by
  induction rows generalizing t with
  | nil => simp
  | cons s rest ih =>
    obtain ⟨ih1, ih2, ih3, ih4⟩ := ih (addRow t s)
    refine ⟨?_, ?_, ?_, ?_⟩
    · simpa [addRow] using ih1
    · simpa [addRow] using ih2
    · simp only [List.foldl_cons, List.map_cons, List.sum_cons]
      rw [ih3]
      simp only [addRow]
      ring
    · simp only [List.foldl_cons, List.map_cons, List.sum_cons]
      rw [ih4]
      simp only [addRow]
      ring

lemma insertSorted_pairwise_rev (x : TopProduct) (l : List TopProduct)
    (h : l.Pairwise (fun a b => b.revenue ≤ a.revenue)) :
    (insertSorted (fun a b => decide (b.revenue < a.revenue)) x l).Pairwise
      (fun a b => b.revenue ≤ a.revenue) := by
  induction l with
  | nil => simp [insertSorted]
  | cons y ys ih =>
    rw [List.pairwise_cons] at h
    obtain ⟨hy, hys⟩ := h
    unfold insertSorted
    split
    next hlt =>
      have hxy : y.revenue < x.revenue := of_decide_eq_true hlt
      rw [List.pairwise_cons]
      constructor
      · intro z hz
        rcases List.mem_cons.mp hz with rfl | hz2
        · exact le_of_lt hxy
        · exact le_trans (hy z hz2) (le_of_lt hxy)
      · exact List.pairwise_cons.mpr ⟨hy, hys⟩
    next hlt =>
      have hxy : x.revenue ≤ y.revenue :=
        le_of_not_lt (fun hc => hlt (decide_eq_true hc))
      rw [List.pairwise_cons]
      constructor
      · intro z hz
        have hz2 := (insertSorted_perm _ x ys).mem_iff.mp hz
        rcases List.mem_cons.mp hz2 with rfl | hz3
        · exact hxy
        · exact hy z hz3
      · exact ih hys

lemma sortWith_pairwise_rev (l : List TopProduct) :
    (sortWith (fun a b => decide (b.revenue < a.revenue)) l).Pairwise
      (fun a b => b.revenue ≤ a.revenue) := by
  induction l with
  | nil => simp [sortWith]
  | cons x xs ih => exact insertSorted_pairwise_rev x _ ih

/-- Counterexample to C8: the code's grouping key is the string
`` `${name}-${sku}` ``, which conflates the distinct (name, sku) pairs
("a-b", "c") and ("a", "b-c") — both concatenate to "a-b-c".  Two sales
of those two different products end up in a single group (carrying the
first product's name and sku), whereas grouping by the (name, sku) pair
yields two groups. -/
theorem C8_grouping_counterexample :
    productMap [⟨1, 10, "a-b", "c"⟩, ⟨1, 10, "a", "b-c"⟩]
      = [("a-b-c", ⟨"a-b", "c", 2, 20⟩)]
    ∧ (productMapByPair [⟨1, 10, "a-b", "c"⟩, ⟨1, 10, "a", "b-c"⟩]).length = 2
    ∧ topProductsArray [⟨1, 10, "a-b", "c"⟩, ⟨1, 10, "a", "b-c"⟩]
        = [⟨"a-b", "c", 2, 20⟩] := by
  decide

/-- Claim C8 as amended: the top-products list groups sales by the
hyphen-joined string `name-sku` (which coincides with grouping by the
(name, sku) pair only when no two distinct pairs concatenate equally);
each group's units sold is Σ(quantity) and its revenue is
Σ(price × quantity) over that key's rows, the group carries the first
matching row's name and sku, and the result is the first 5 groups of a
permutation of the group list ordered by revenue descending. -/
theorem C8_amended_grouping (sales : List TopSaleRow) :
    (∀ k, (productMap sales).lookup k = groupOf sales k)
    ∧ (∀ k t, groupOf sales k = some t →
        t.totalSold = ((keyRows sales k).map (fun s => s.quantity)).sum
        ∧ t.revenue = ((keyRows sales k).map (fun s => s.price * s.quantity)).sum
        ∧ (∃ s rest, keyRows sales k = s :: rest ∧ t.name = s.name ∧ t.sku = s.sku))
    ∧ topProductsArray sales
        = (sortWith (fun a b => decide (b.revenue < a.revenue))
            ((productMap sales).map Prod.snd)).take 5
    ∧ (sortWith (fun a b => decide (b.revenue < a.revenue))
        ((productMap sales).map Prod.snd)).Pairwise
          (fun a b => b.revenue ≤ a.revenue)
    ∧ (sortWith (fun a b => decide (b.revenue < a.revenue))
        ((productMap sales).map Prod.snd)).Perm
          ((productMap sales).map Prod.snd) := by
  refine ⟨lookup_productMap sales, ?_, rfl, sortWith_pairwise_rev _, sortWith_perm _ _⟩
  intro k t ht
  unfold groupOf at ht
  cases hkr : keyRows sales k with
  | nil => rw [hkr] at ht; exact Option.noConfusion ht
  | cons s rest =>
    rw [hkr] at ht
    have ht2 : (s :: rest).foldl addRow ⟨s.name, s.sku, 0, 0⟩ = t := by
      simpa using ht
    obtain ⟨hf1, hf2, hf3, hf4⟩ := foldl_addRow_fields (s :: rest) ⟨s.name, s.sku, 0, 0⟩
    rw [ht2] at hf1 hf2 hf3 hf4
    refine ⟨?_, ?_, s, rest, rfl, hf1, hf2⟩
    · rw [hf3]
      simp
    · rw [hf4]
      simp

/-- Witness for C8's amended claim: two sales of the same product and one
of another aggregate to units 5 and revenue 500 under the key
"Polo-SKU1". -/
theorem C8_amended_grouping_witness :
    groupOf [⟨2, 100, "Polo", "SKU1"⟩, ⟨1, 50, "Tee", "SKU2"⟩, ⟨3, 100, "Polo", "SKU1"⟩]
        "Polo-SKU1" = some ⟨"Polo", "SKU1", 5, 500⟩
    ∧ ((⟨"Polo", "SKU1", 5, 500⟩ : TopProduct).totalSold
        = ((keyRows [⟨2, 100, "Polo", "SKU1"⟩, ⟨1, 50, "Tee", "SKU2"⟩,
            ⟨3, 100, "Polo", "SKU1"⟩] "Polo-SKU1").map (fun s => s.quantity)).sum
      ∧ (⟨"Polo", "SKU1", 5, 500⟩ : TopProduct).revenue
        = ((keyRows [⟨2, 100, "Polo", "SKU1"⟩, ⟨1, 50, "Tee", "SKU2"⟩,
            ⟨3, 100, "Polo", "SKU1"⟩] "Polo-SKU1").map
              (fun s => s.price * s.quantity)).sum
      ∧ (∃ s rest, keyRows [⟨2, 100, "Polo", "SKU1"⟩, ⟨1, 50, "Tee", "SKU2"⟩,
            ⟨3, 100, "Polo", "SKU1"⟩] "Polo-SKU1" = s :: rest
          ∧ (⟨"Polo", "SKU1", 5, 500⟩ : TopProduct).name = s.name
          ∧ (⟨"Polo", "SKU1", 5, 500⟩ : TopProduct).sku = s.sku)) :=
  ⟨by decide,
   (C8_amended_grouping
      [⟨2, 100, "Polo", "SKU1"⟩, ⟨1, 50, "Tee", "SKU2"⟩, ⟨3, 100, "Polo", "SKU1"⟩]).2.1
     "Polo-SKU1" ⟨"Polo", "SKU1", 5, 500⟩ (by decide)⟩

end Elegante
